import Mathlib

/-!
Verification of the pacing rate limiter (`ratelimiter.h` / `ratelimiter.cc`).

The state of a `RateLimiter` object and its operations `send`, `recv`,
`sendfile`, `sendall`, `time_less`, `time_add`, `time_diff`, `time_diff2`
are shallowly embedded below.  Conventions of the embedding:

* `struct timespec` becomes `Timespec` with `Int` fields (`time_t` and `long`
  are 64-bit on the reference platform; no claim exercises their overflow).
* C `double` values are modelled as exact rationals `ℚ`; C `trunc` becomes
  `ctrunc` (rounding toward zero).
* `size_t` values are `Nat`; conversions of signed values to `size_t` go
  through `toSize` (reduction modulo 2^64), so unsigned comparisons such as
  `result < 0` are Nat comparisons exactly as in C.  Conversion of an
  `ssize_t` to `int` goes through `toInt32`.
* The external collaborators (`clock_gettime`, `::send`, `::recv`, `read`,
  `::sendfile`) are modelled by explicit input streams that are consumed in
  call order; a function returns `none` when its stream runs out (the real
  program would block or loop forever there).  `nanosleep` and each
  collaborator invocation are recorded in a trace of `Call` events.
* The pthread mutex serialises the critical sections; a single operation is
  modelled as one linearised sequence of state updates, which is exactly the
  order the lock enforces.
-/

namespace RateLimiter

/-- Model of `struct timespec`: the `tv_sec` and `tv_nsec` fields. -/
structure Timespec where
  tv_sec : Int
  tv_nsec : Int
deriving DecidableEq, Repr

/-- Nanoseconds per second: the local constant `nmax = 1000000000` of the source. -/
def nmax : Int := 1000000000

/-- Embedding of `RateLimiter::time_less`: nonzero iff `t1` strictly precedes
`t2` (seconds first, nanoseconds as tiebreak).  The C `int` result is a
`Bool`. -/
def time_less (t1 t2 : Timespec) : Bool :=
  t1.tv_sec < t2.tv_sec || (t1.tv_sec == t2.tv_sec && t1.tv_nsec < t2.tv_nsec)

/-- The C library function `trunc`, rounding a double toward zero (doubles are
modelled as exact rationals). -/
def ctrunc (q : ℚ) : Int := if q < 0 then -⌊-q⌋ else ⌊q⌋

/-- Embedding of `RateLimiter::time_add`: advance `t1` by a fractional-second
duration, splitting the duration into whole seconds plus a nanosecond part
and carrying nanosecond overflow into seconds. -/
def time_add (t1 : Timespec) (duration : ℚ) : Timespec :=
  let sec := t1.tv_sec + ctrunc duration
  let nsec := t1.tv_nsec + ctrunc ((duration - (ctrunc duration : ℚ)) * (nmax : ℚ))
  if nsec ≥ nmax then
    { tv_sec := sec + nsec / nmax, tv_nsec := nsec % nmax }
  else
    { tv_sec := sec, tv_nsec := nsec }

/-- Embedding of `RateLimiter::time_diff`: `t1 - t2` with borrow from the
seconds field when the nanosecond subtraction is negative. -/
def time_diff (t1 t2 : Timespec) : Timespec :=
  if t1.tv_nsec - t2.tv_nsec < 0 then
    { tv_sec := t1.tv_sec - t2.tv_sec - 1, tv_nsec := t1.tv_nsec - t2.tv_nsec + nmax }
  else
    { tv_sec := t1.tv_sec - t2.tv_sec, tv_nsec := t1.tv_nsec - t2.tv_nsec }

/-- Embedding of `RateLimiter::time_diff2`: the difference `t1 - t2` as a
fractional-second double (`sec + nsec/nmax` after the same borrow rule as
`time_diff`). -/
def time_diff2 (t1 t2 : Timespec) : ℚ :=
  if t1.tv_nsec - t2.tv_nsec < 0 then
    ((t1.tv_sec - t2.tv_sec - 1 : Int) : ℚ) + ((t1.tv_nsec - t2.tv_nsec + nmax : Int) : ℚ) / (nmax : ℚ)
  else
    ((t1.tv_sec - t2.tv_sec : Int) : ℚ) + ((t1.tv_nsec - t2.tv_nsec : Int) : ℚ) / (nmax : ℚ)

/-- Specification-side order on timestamps: `a` is no later than `b`. -/
def Timespec.le (a b : Timespec) : Prop :=
  a.tv_sec < b.tv_sec ∨ (a.tv_sec = b.tv_sec ∧ a.tv_nsec ≤ b.tv_nsec)

instance (a b : Timespec) : Decidable (Timespec.le a b) :=
  inferInstanceAs (Decidable (_ ∨ _))

/-- A timestamp is normalized when its nanosecond field lies in `[0, 1e9)`,
the documented invariant of the value type. -/
def Norm (t : Timespec) : Prop := 0 ≤ t.tv_nsec ∧ t.tv_nsec < nmax

instance (t : Timespec) : Decidable (Norm t) :=
  inferInstanceAs (Decidable (_ ∧ _))

/-- Value of a timestamp in seconds, as an exact rational. -/
def toQ (t : Timespec) : ℚ := (t.tv_sec : ℚ) + (t.tv_nsec : ℚ) / (nmax : ℚ)

/-- Value of a timestamp in nanoseconds. -/
def toNanos (t : Timespec) : Int := t.tv_sec * nmax + t.tv_nsec

/-- The credit draw-down block shared verbatim by `send` and `recv`:
`if (duration >= extra) { duration -= extra; extra = 0; } else
{ extra -= duration; duration = 0; }`.  Returns the new
`(duration, extra)` pair. -/
def drawdown (duration extra : ℚ) : ℚ × ℚ :=
  if duration ≥ extra then (duration - extra, 0) else (0, extra - duration)

/-- Result of one blocking collaborator call (`::send`, `::recv` or `read`):
either a byte count (the C return value `n ≥ 0`), or `-1` with `errno`
indicating whether the operation was interrupted (`EINTR`). -/
inductive SysResult where
  | bytes (n : Nat)
  | fail (eintr : Bool)
deriving DecidableEq, Repr

/-- Raw `ssize_t` value returned by a collaborator call. -/
def sysRet : SysResult → Int
  | .bytes n => n
  | .fail _ => -1

/-- Conversion of a signed value to `size_t` (reduction modulo `2^64`). -/
def toSize (i : Int) : Nat := (i % 18446744073709551616).toNat

/-- Conversion of a signed value to `int` (wrap-around at 32 bits). -/
def toInt32 (i : Int) : Int := (i + 2147483648) % 4294967296 - 2147483648

/-- Externally observable events of one operation: collaborator invocations
(with their arguments) and `nanosleep` calls. -/
inductive Call where
  | netSend (s : Int) (off : Nat) (len : Nat) (flags : Int)
  | netRecv (s : Int) (len : Nat) (flags : Int)
  | fileRead (fd : Int) (len : Nat)
  | sysSendfile (sock fd : Int) (count : Nat)
  | sleep (t : Timespec)
deriving DecidableEq, Repr

/-- The mutable fields of a `RateLimiter` object (the mutex is modelled by the
linearised update order). -/
structure RLState where
  send_ : Timespec
  recv_ : Timespec
  sendextra_ : ℚ
  recvextra_ : ℚ
  rate_ : Int
  maxburst_ : Int
deriving DecidableEq, Repr

/-- Embedding of the loop of `RateLimiter::sendall`: `net` is the stream of
`::send` results, `nleft` the bytes still to write, `ptr` the offset of the
next byte.  Returns the `size_t` return value of `sendall`, the value of
`nleft` at exit (so `len - nleft` bytes were actually delivered), the
unconsumed stream and the trace.  An interrupted `::send` sets `nwritten = 0`
and retries; a fatal failure returns the local variable `error`, which is
always `0`; a zero-length result breaks the loop, after which the full `len`
is returned. -/
def sendallGo (s flags : Int) (len : Nat) :
    List SysResult → Nat → Nat → Option (Nat × Nat × List SysResult × List Call)
  | net, 0, _ => some (len, 0, net, [])
  | [], _ + 1, _ => none
  | r :: net, nleft + 1, ptr =>
    match r with
    | .fail true =>
      match sendallGo s flags len net (nleft + 1) ptr with
      | none => none
      | some (a, b, c, tr) => some (a, b, c, Call.netSend s ptr (nleft + 1) flags :: tr)
    | .fail false => some (0, nleft + 1, net, [Call.netSend s ptr (nleft + 1) flags])
    | .bytes 0 => some (len, nleft + 1, net, [Call.netSend s ptr (nleft + 1) flags])
    | .bytes (m + 1) =>
      match sendallGo s flags len net (toSize ((nleft : Int) + 1 - ((m : Int) + 1)))
          (ptr + (m + 1)) with
      | none => none
      | some (a, b, c, tr) => some (a, b, c, Call.netSend s ptr (nleft + 1) flags :: tr)

/-- Embedding of `RateLimiter::sendall` (entry point). -/
def sendall (s : Int) (net : List SysResult) (len : Nat) (flags : Int) :
    Option (Nat × Nat × List SysResult × List Call) :=
  sendallGo s flags len net len 0

/-- One pass of the chunk loop of `RateLimiter::send`, recursing on explicit
fuel (one unit per iteration; with a positive maximum burst the loop runs at
most `len` iterations).  `cl` is the stream of `clock_gettime` readings,
consumed in call order (`now`, then `t1`, then `t2`). -/
def sendLoop (s flags : Int) (len : Nat) :
    Nat → RLState → List Timespec → List SysResult → Nat → Nat →
    Option (Nat × RLState × List Timespec × List SysResult × List Call)
  | 0, st, cl, net, _, total =>
    if total = 0 then some (len, st, cl, net, []) else none
  | fuel + 1, st, cl, net, ptr, total =>
    if total = 0 then some (len, st, cl, net, []) else
    let size := if total > toSize st.maxburst_ then toSize st.maxburst_ else total
    let duration : ℚ := ((size * 8 % 18446744073709551616 : Nat) : ℚ) / (st.rate_ : ℚ)
    match cl with
    | [] => none
    | now :: cl =>
      let dd := drawdown duration st.sendextra_
      let step := if time_less st.send_ now then (now, (⟨0, 0⟩ : Timespec))
        else (st.send_, time_diff st.send_ now)
      let send2 := time_add step.1 dd.1
      let mysend := time_add step.2 dd.1
      match cl with
      | [] => none
      | t1 :: cl =>
        match sendallGo s flags size net size ptr with
        | none => none
        | some (result, _, net2, tr) =>
          if result < 0 then
            some (result, { st with send_ := send2, sendextra_ := dd.2 }, cl, net2,
              Call.sleep mysend :: tr)
          else
            match cl with
            | [] => none
            | t2 :: cl =>
              let st2 : RLState :=
                { st with send_ := send2, sendextra_ := dd.2 + time_diff2 t2 t1 }
              match sendLoop s flags len fuel st2 cl net2 (ptr + size) (total - size) with
              | none => none
              | some (res, st3, cl3, net3, tr3) =>
                some (res, st3, cl3, net3, (Call.sleep mysend :: tr) ++ tr3)

/-- Embedding of `RateLimiter::send`: with `rate_ == 0` a single direct
`::send` of the whole buffer, otherwise the paced chunk loop. -/
def send (st : RLState) (cl : List Timespec) (net : List SysResult)
    (s : Int) (len : Nat) (flags : Int) :
    Option (Nat × RLState × List Timespec × List SysResult × List Call) :=
  if st.rate_ = 0 then
    match net with
    | [] => none
    | r :: rest => some (toSize (sysRet r), st, cl, rest, [Call.netSend s 0 len flags])
  else
    sendLoop s flags len len st cl net 0 len

/-- Embedding of `RateLimiter::recv`: with `rate_ == 0` a single direct
`::recv`, otherwise one clamped `::recv` followed by the pacing bookkeeping
and sleep.  `netr` is the stream of `::recv` results. -/
def recv (st : RLState) (cl : List Timespec) (netr : List SysResult)
    (s : Int) (len : Nat) (flags : Int) :
    Option (Nat × RLState × List Timespec × List SysResult × List Call) :=
  if st.rate_ = 0 then
    match netr with
    | [] => none
    | r :: rest => some (toSize (sysRet r), st, cl, rest, [Call.netRecv s len flags])
  else
    let size := if len > toSize st.maxburst_ then toSize st.maxburst_ else len
    match cl with
    | [] => none
    | t1 :: cl =>
      match netr with
      | [] => none
      | r :: netr =>
        let result := toInt32 (sysRet r)
        if result ≤ 0 then some (toSize result, st, cl, netr, [Call.netRecv s size flags])
        else
          match cl with
          | [] => none
          | t2 :: cl =>
            let duration : ℚ := (toInt32 (result * 8) : ℚ) / (st.rate_ : ℚ)
            match cl with
            | [] => none
            | now :: cl =>
              let dd := drawdown duration (st.recvextra_ + time_diff2 t2 t1)
              let step := if time_less st.recv_ now then (now, (⟨0, 0⟩ : Timespec))
                else (st.recv_, time_diff st.recv_ now)
              let recv2 := time_add step.1 dd.1
              let myrecv := time_add step.2 dd.1
              some (toSize result, { st with recv_ := recv2, recvextra_ := dd.2 },
                cl, netr, [Call.netRecv s size flags, Call.sleep myrecv])

/-- The read-and-send loop of `RateLimiter::sendfile`, recursing on the stream
of `read` results (each iteration performs exactly one `read`).  `rnum` is a
`size_t`, so the negative-result check can never fire: a failed `read`
(`-1`, interrupted or not) is seen as the byte count `2^64 - 1`, clamped to
`count - len` and sent. -/
def sendfileLoop (sock fd : Int) (count : Nat) :
    List SysResult → RLState → List Timespec → List SysResult → Nat →
    Option (Int × RLState × List Timespec × List SysResult × List Call)
  | file, st, cl, net, len =>
    if count ≤ len then some ((count : Int), st, cl, net, []) else
    match file with
    | [] => none
    | r :: file =>
      let rnum := toSize (sysRet r)
      if rnum < 0 then
        match r with
        | .fail true =>
          match sendfileLoop sock fd count file st cl net len with
          | none => none
          | some (res, st3, cl3, net3, tr3) =>
            some (res, st3, cl3, net3, Call.fileRead fd 1024 :: tr3)
        | _ => some ((rnum : Int), st, cl, net, [Call.fileRead fd 1024])
      else if rnum = 0 then some ((len : Int), st, cl, net, [Call.fileRead fd 1024])
      else
        let rnum2 := if rnum > count - len then count - len else rnum
        match send st cl net sock rnum2 0 with
        | none => none
        | some (snum, st2, cl2, net2, tr) =>
          if snum < 0 then some ((snum : Int), st2, cl2, net2, Call.fileRead fd 1024 :: tr)
          else
            match sendfileLoop sock fd count file st2 cl2 net2 (len + rnum2) with
            | none => none
            | some (res, st3, cl3, net3, tr3) =>
              some (res, st3, cl3, net3, Call.fileRead fd 1024 :: (tr ++ tr3))

/-- Embedding of `RateLimiter::sendfile`: with `rate_ == 0` a single direct
`::sendfile` whose result is `sfres`, otherwise the paced file pump. -/
def sendfile (st : RLState) (cl : List Timespec) (net : List SysResult)
    (file : List SysResult) (sfres : Int) (sock fd : Int) (count : Nat) :
    Option (Int × RLState × List Timespec × List SysResult × List Call) :=
  if st.rate_ = 0 then some (sfres, st, cl, net, [Call.sysSendfile sock fd count])
  else sendfileLoop sock fd count file st cl net 0

/-- Well-formed clock stream: readings are monotone and normalized, which is
what `clock_gettime(CLOCK_REALTIME)` delivers when time is not stepped; in
particular every measured transfer duration is non-negative. -/
def ClockWF (cl : List Timespec) : Prop :=
  cl.Pairwise Timespec.le ∧ ∀ t ∈ cl, Norm t

instance (cl : List Timespec) : Decidable (ClockWF cl) :=
  inferInstanceAs (Decidable (_ ∧ _))

/-- State left by a constructor.  A field the constructor body never assigns
is `none` (the C++ member is uninitialized; reading it is undefined
behavior). -/
structure CtorState where
  send_ : Option Timespec
  recv_ : Option Timespec
  sendextra_ : Option ℚ
  recvextra_ : Option ℚ
  rate_ : Int
  maxburst_ : Int
deriving DecidableEq

/-- Embedding of `RateLimiter::RateLimiter()`: unlimited rate, default burst,
both timestamps set to the current time; neither credit field is assigned. -/
def mk0 (now1 now2 : Timespec) : CtorState :=
  { send_ := some now1, recv_ := some now2, sendextra_ := none, recvextra_ := none,
    rate_ := 0, maxburst_ := 10000 }

/-- Embedding of `RateLimiter::RateLimiter(int r)`: rate `r * 1000`, default
burst, both timestamps set to the current time; neither credit field is
assigned. -/
def mk1 (r : Int) (now1 now2 : Timespec) : CtorState :=
  { send_ := some now1, recv_ := some now2, sendextra_ := none, recvextra_ := none,
    rate_ := r * 1000, maxburst_ := 10000 }

/-- Embedding of `RateLimiter::RateLimiter(int r, int maxburst)`: rate
`r * 1000`, burst `maxburst`, only `send_` is set to the current time;
`recv_` and both credit fields are never assigned. -/
def mk2 (r m : Int) (now1 : Timespec) : CtorState :=
  { send_ := some now1, recv_ := none, sendextra_ := none, recvextra_ := none,
    rate_ := r * 1000, maxburst_ := m }

/-! Basic facts about the time arithmetic. -/

lemma Timespec.le_refl (t : Timespec) : t.le t := Or.inr ⟨rfl, le_rfl⟩

lemma Timespec.le_trans {a b c : Timespec} (h1 : a.le b) (h2 : b.le c) : a.le c := by
  unfold Timespec.le at *
  omega

lemma time_less_le {a b : Timespec} (h : time_less a b = true) : a.le b := by
  simp only [time_less, Bool.or_eq_true, Bool.and_eq_true, decide_eq_true_eq, beq_iff_eq] at h
  unfold Timespec.le
  omega

lemma drawdown_fst_nonneg (d c : ℚ) : 0 ≤ (drawdown d c).1 := by
  unfold drawdown
  split
  · rename_i h
    show 0 ≤ d - c
    linarith
  · show (0 : ℚ) ≤ 0
    exact le_rfl

lemma drawdown_snd_nonneg (d : ℚ) {c : ℚ} (hc : 0 ≤ c) : 0 ≤ (drawdown d c).2 := by
  unfold drawdown
  split
  · show (0 : ℚ) ≤ 0
    exact le_rfl
  · rename_i h
    show 0 ≤ c - d
    have hdc : d < c := not_le.1 h
    linarith

lemma ctrunc_of_nonneg {q : ℚ} (h : 0 ≤ q) : ctrunc q = ⌊q⌋ := by
  rw [ctrunc, if_neg (not_lt.2 h)]

lemma ctrunc_nonneg {q : ℚ} (h : 0 ≤ q) : 0 ≤ ctrunc q := by
  rw [ctrunc_of_nonneg h]
  exact Int.floor_nonneg.2 h

/-- The fractional nanosecond increment computed by `time_add` is in `[0, nmax)`
whenever the duration is non-negative. -/
lemma time_add_frac_bounds {d : ℚ} (hd : 0 ≤ d) :
    0 ≤ ctrunc ((d - (ctrunc d : ℚ)) * (nmax : ℚ)) ∧
      ctrunc ((d - (ctrunc d : ℚ)) * (nmax : ℚ)) < nmax := by
  rw [ctrunc_of_nonneg hd]
  have hf0 : (0 : ℚ) ≤ d - (⌊d⌋ : ℚ) := sub_nonneg.2 (Int.floor_le d)
  have hf1 : d - (⌊d⌋ : ℚ) < 1 := by
    have := Int.lt_floor_add_one d
    linarith
  have hm : (0 : ℚ) ≤ (nmax : ℚ) := by norm_num [nmax]
  have h0 : (0 : ℚ) ≤ (d - (⌊d⌋ : ℚ)) * (nmax : ℚ) := mul_nonneg hf0 hm
  rw [ctrunc_of_nonneg h0]
  constructor
  · exact Int.floor_nonneg.2 h0
  · apply Int.floor_lt.2
    calc (d - (⌊d⌋ : ℚ)) * (nmax : ℚ) < 1 * (nmax : ℚ) := by
          apply mul_lt_mul_of_pos_right hf1
          norm_num [nmax]
    _ = ((nmax : Int) : ℚ) := by norm_num

/-- `time_add` with a non-negative duration never moves a timestamp backward. -/
lemma time_add_le (t : Timespec) {d : ℚ} (hd : 0 ≤ d) : t.le (time_add t d) := by
  have ha : 0 ≤ ctrunc d := ctrunc_nonneg hd
  have hb := (time_add_frac_bounds hd).1
  simp only [time_add]
  split
  · rename_i hcarry
    simp only [Timespec.le]
    unfold nmax at *
    omega
  · rename_i hcarry
    simp only [Timespec.le]
    unfold nmax at *
    omega

/-- Splitting a duration into whole seconds and floored nanoseconds loses
nothing against flooring the whole duration in nanoseconds. -/
lemma floor_split (d : ℚ) :
    ⌊d⌋ * nmax + ⌊(d - (⌊d⌋ : ℚ)) * (nmax : ℚ)⌋ = ⌊d * (nmax : ℚ)⌋ := by
  have h1 : d * (nmax : ℚ) = ((⌊d⌋ * nmax : Int) : ℚ) + (d - (⌊d⌋ : ℚ)) * (nmax : ℚ) := by
    push_cast
    ring
  rw [h1, Int.floor_int_add]

/-- Full specification of `time_add` on normalized timestamps with non-negative
durations: the result is normalized and advances the timestamp by exactly
`⌊d * 1e9⌋` nanoseconds. -/
lemma time_add_spec (t : Timespec) {d : ℚ} (hn : Norm t) (hd : 0 ≤ d) :
    Norm (time_add t d) ∧ toNanos (time_add t d) = toNanos t + ⌊d * (nmax : ℚ)⌋ := by
  have ha : ctrunc d = ⌊d⌋ := ctrunc_of_nonneg hd
  have hprod : (0 : ℚ) ≤ (d - (⌊d⌋ : ℚ)) * (nmax : ℚ) :=
    mul_nonneg (sub_nonneg.2 (Int.floor_le d)) (by norm_num [nmax])
  have hfr : ctrunc ((d - (⌊d⌋ : ℚ)) * (nmax : ℚ)) = ⌊(d - (⌊d⌋ : ℚ)) * (nmax : ℚ)⌋ :=
    ctrunc_of_nonneg hprod
  have hb0 := (time_add_frac_bounds hd).1
  have hb1 := (time_add_frac_bounds hd).2
  have hkey := floor_split d
  rw [ha, hfr] at hb0 hb1
  simp only [time_add, ha, hfr]
  unfold Norm toNanos nmax at *
  split
  · rename_i hcarry
    dsimp only
    constructor
    · constructor <;> omega
    · omega
  · rename_i hcarry
    dsimp only
    constructor
    · constructor <;> omega
    · omega

/-- Full specification of `time_diff` when `b` is no later than `a` and both
are normalized: the result is normalized, has a non-negative seconds field and
is exactly the difference. -/
lemma time_diff_spec {a b : Timespec} (hna : Norm a) (hnb : Norm b) (h : b.le a) :
    Norm (time_diff a b) ∧ 0 ≤ (time_diff a b).tv_sec ∧
      toNanos (time_diff a b) = toNanos a - toNanos b := by
  unfold Norm nmax at hna hnb
  unfold Timespec.le at h
  simp only [time_diff]
  unfold Norm toNanos nmax
  split <;>
    · dsimp only
      refine ⟨⟨by omega, by omega⟩, by omega, by omega⟩

/-- `time_diff2` returns exactly the value of the `time_diff` structure. -/
lemma time_diff2_eq (a b : Timespec) : time_diff2 a b = toQ (time_diff a b) := by
  rcases lt_or_ge (a.tv_nsec - b.tv_nsec) 0 with h | h
  · simp only [time_diff2, time_diff, if_pos h, toQ]
  · simp only [time_diff2, time_diff, if_neg (not_lt.2 h), toQ]

/-- Measured durations are non-negative: `time_diff2 b a ≥ 0` whenever the
normalized timestamp `a` is no later than the normalized `b`. -/
lemma time_diff2_nonneg {a b : Timespec} (hna : Norm a) (hnb : Norm b) (h : a.le b) :
    0 ≤ time_diff2 b a := by
  unfold time_diff2
  have hm : (0 : ℚ) < (nmax : ℚ) := by norm_num [nmax]
  split
  · rename_i hlt
    have h1 : (0 : Int) ≤ b.tv_sec - a.tv_sec - 1 := by
      unfold Norm Timespec.le nmax at *
      omega
    have h2 : (0 : Int) ≤ b.tv_nsec - a.tv_nsec + nmax := by
      unfold Norm nmax at *
      omega
    have c1 : (0 : ℚ) ≤ ((b.tv_sec - a.tv_sec - 1 : Int) : ℚ) := by exact_mod_cast h1
    have c2 : (0 : ℚ) ≤ ((b.tv_nsec - a.tv_nsec + nmax : Int) : ℚ) := by exact_mod_cast h2
    positivity
  · rename_i hge
    have h1 : (0 : Int) ≤ b.tv_sec - a.tv_sec := by
      unfold Norm Timespec.le nmax at *
      omega
    have h2 : (0 : Int) ≤ b.tv_nsec - a.tv_nsec := not_lt.1 hge
    have c1 : (0 : ℚ) ≤ ((b.tv_sec - a.tv_sec : Int) : ℚ) := by exact_mod_cast h1
    have c2 : (0 : ℚ) ≤ ((b.tv_nsec - a.tv_nsec : Int) : ℚ) := by exact_mod_cast h2
    positivity

lemma toQ_toNanos (t : Timespec) : toQ t = (toNanos t : ℚ) / (nmax : ℚ) := by
  unfold toQ toNanos
  have hm : ((nmax : Int) : ℚ) ≠ 0 := by norm_num [nmax]
  push_cast
  field_simp

/-- On normalized timestamps the strict lexicographic test of `time_less`
coincides with the strict order of timestamp values. -/
lemma time_less_iff {a b : Timespec} (hna : Norm a) (hnb : Norm b) :
    time_less a b = true ↔ toQ a < toQ b := by
  have hm : (0 : ℚ) < (nmax : ℚ) := by norm_num [nmax]
  rw [toQ_toNanos, toQ_toNanos, div_lt_div_iff_of_pos_right hm]
  have hcast : (toNanos a : ℚ) < (toNanos b : ℚ) ↔ toNanos a < toNanos b := by
    exact_mod_cast Iff.rfl
  rw [hcast]
  simp only [time_less, Bool.or_eq_true, Bool.and_eq_true, decide_eq_true_eq, beq_iff_eq]
  unfold toNanos Norm nmax at *
  omega

/-- C4: for non-negative ideal duration `d` and credit `c`, the credit
draw-down produces post-draw duration `d - min d c = max (d - c) 0` and new
credit `c - min d c = max (c - d) 0`: prior overruns reduce the delay of
subsequent chunks by exactly the amount of the overrun, never more. -/
theorem claim_C4 (d c : ℚ) (hd : 0 ≤ d) (hc : 0 ≤ c) :
    (drawdown d c).1 = d - min d c ∧ (drawdown d c).1 = max (d - c) 0 ∧
      (drawdown d c).2 = c - min d c ∧ (drawdown d c).2 = max (c - d) 0 := by
  unfold drawdown
  rcases le_or_lt c d with h | h
  · rw [if_pos (by exact h)]
    refine ⟨?_, ?_, ?_, ?_⟩
    · simp [min_eq_right h]
    · simp [max_eq_left (sub_nonneg.2 h)]
    · simp [min_eq_right h]
    · simp [max_eq_right (sub_nonpos.2 h)]
  · rw [if_neg (not_le.2 h)]
    have h' : d ≤ c := le_of_lt h
    refine ⟨?_, ?_, ?_, ?_⟩
    · simp [min_eq_left h']
    · simp [max_eq_right (sub_nonpos.2 h')]
    · simp [min_eq_left h']
    · simp [max_eq_left (sub_nonneg.2 h')]

/-- Witness for C4 at `d = 3`, `c = 1`. -/
theorem claim_C4_witness :
    (0 : ℚ) ≤ 3 ∧ (0 : ℚ) ≤ 1 ∧
      ((drawdown 3 1).1 = 3 - min 3 1 ∧ (drawdown 3 1).1 = max (3 - 1) 0 ∧
        (drawdown 3 1).2 = 1 - min 3 1 ∧ (drawdown 3 1).2 = max (1 - 3) 0) :=
  ⟨by norm_num, by norm_num, claim_C4 3 1 (by norm_num) (by norm_num)⟩

/-- C8 (amended): for normalized timestamps, `time_less a b` is true iff the
value of `a` strictly precedes the value of `b`; for a non-negative duration
`d`, `time_add` advances a normalized timestamp by exactly `⌊d * 1e9⌋`
nanoseconds with the nanosecond field renormalized into `[0, 1e9)` (so the
result is the exact sum precisely when `d` is a whole number of nanoseconds);
for `a ≥ b` `time_diff` yields exactly `a - b` via the borrow rule with
nanoseconds back in `[0, 1e9)`; and `time_diff2` returns the same difference
as seconds plus nanoseconds divided by `1e9`. -/
theorem claim_C8 :
    (∀ a b : Timespec, Norm a → Norm b → (time_less a b = true ↔ toQ a < toQ b)) ∧
    (∀ (t : Timespec) (d : ℚ), Norm t → 0 ≤ d →
      Norm (time_add t d) ∧ toNanos (time_add t d) = toNanos t + ⌊d * (nmax : ℚ)⌋) ∧
    (∀ a b : Timespec, Norm a → Norm b → Timespec.le b a →
      Norm (time_diff a b) ∧ 0 ≤ (time_diff a b).tv_sec ∧
        toNanos (time_diff a b) = toNanos a - toNanos b) ∧
    (∀ a b : Timespec, time_diff2 a b = toQ (time_diff a b)) := by
  refine ⟨?_, ?_, ?_, ?_⟩
  · intro a b hna hnb
    exact time_less_iff hna hnb
  · intro t d hn hd
    exact time_add_spec t hn hd
  · intro a b hna hnb h
    exact time_diff_spec hna hnb h
  · intro a b
    exact time_diff2_eq a b

/-- Witness for C8 at concrete normalized timestamps and duration `3/2`. -/
theorem claim_C8_witness :
    (time_less ⟨1, 5⟩ ⟨1, 7⟩ = true ↔ toQ ⟨1, 5⟩ < toQ ⟨1, 7⟩) ∧
    (Norm (time_add ⟨1, 999999999⟩ (3 / 2)) ∧
      toNanos (time_add ⟨1, 999999999⟩ (3 / 2)) =
        toNanos ⟨1, 999999999⟩ + ⌊(3 / 2 : ℚ) * (nmax : ℚ)⌋) ∧
    (Norm (time_diff ⟨2, 3⟩ ⟨1, 7⟩) ∧ 0 ≤ (time_diff ⟨2, 3⟩ ⟨1, 7⟩).tv_sec ∧
      toNanos (time_diff ⟨2, 3⟩ ⟨1, 7⟩) = toNanos ⟨2, 3⟩ - toNanos ⟨1, 7⟩) ∧
    time_diff2 ⟨2, 3⟩ ⟨1, 7⟩ = toQ (time_diff ⟨2, 3⟩ ⟨1, 7⟩) :=
  ⟨claim_C8.1 ⟨1, 5⟩ ⟨1, 7⟩ (by decide) (by decide),
   claim_C8.2.1 ⟨1, 999999999⟩ (3 / 2) (by decide) (by norm_num),
   claim_C8.2.2.1 ⟨2, 3⟩ ⟨1, 7⟩ (by decide) (by decide) (by decide),
   claim_C8.2.2.2 ⟨2, 3⟩ ⟨1, 7⟩⟩

/-- Counterexample to C8 as stated: a duration of half a nanosecond is
truncated away entirely by `time_add`, so the result is not the exact sum. -/
theorem claim_C8_counterexample :
    time_add ⟨0, 0⟩ (1 / 2000000000) = ⟨0, 0⟩ ∧
      toQ (time_add ⟨0, 0⟩ (1 / 2000000000)) ≠ toQ ⟨0, 0⟩ + 1 / 2000000000 := by
  have h : time_add ⟨0, 0⟩ ((1 : ℚ) / 2000000000) = ⟨0, 0⟩ := by
    simp only [time_add, ctrunc, nmax]
    norm_num
  refine ⟨h, ?_⟩
  rw [h]
  unfold toQ
  norm_num

lemma toSize_of_small {i : Int} (h0 : 0 ≤ i) (h1 : i < 18446744073709551616) :
    toSize i = i.toNat := by
  unfold toSize
  rw [Int.emod_eq_of_lt h0 h1]

lemma ClockWF_tail {t : Timespec} {cl : List Timespec} (h : ClockWF (t :: cl)) :
    ClockWF cl := by
  obtain ⟨hp, hn⟩ := h
  exact ⟨(List.pairwise_cons.1 hp).2, fun x hx => hn x (List.mem_cons_of_mem _ hx)⟩

lemma ClockWF_pair {a b : Timespec} {cl : List Timespec} (h : ClockWF (a :: b :: cl)) :
    Norm a ∧ Norm b ∧ a.le b := by
  obtain ⟨hp, hn⟩ := h
  exact ⟨hn a (by simp), hn b (by simp), (List.pairwise_cons.1 hp).1 b (by simp)⟩

/-- The schedule-advance step of `send`/`recv` (reset to `now` when the
schedule lapsed, then `time_add` a non-negative duration) never moves the
schedule timestamp backward. -/
lemma sched_advance_le (t now p q : Timespec) {d : ℚ} (hd : 0 ≤ d) :
    t.le (time_add (if time_less t now then (now, p) else (t, q)).1 d) := by
  by_cases h : time_less t now = true
  · rw [if_pos h]
    exact Timespec.le_trans (time_less_le h) (time_add_le now hd)
  · rw [if_neg h]
    exact time_add_le t hd

/-- Credit invariant of the `send` chunk loop: with a well-formed clock stream
and non-negative send credit, any successful run leaves the send credit
non-negative and the receive fields untouched. -/
lemma sendLoop_credit (s flags : Int) (len : Nat) :
    ∀ (fuel : Nat) (st : RLState) (cl : List Timespec) (net : List SysResult)
      (ptr total : Nat) (out : Nat × RLState × List Timespec × List SysResult × List Call),
      ClockWF cl → 0 ≤ st.sendextra_ →
      sendLoop s flags len fuel st cl net ptr total = some out →
      0 ≤ out.2.1.sendextra_ ∧ out.2.1.recvextra_ = st.recvextra_ := by
  intro fuel
  induction fuel with
  | zero =>
    intro st cl net ptr total out hcl hx h
    simp only [sendLoop] at h
    split at h
    · cases h
      exact ⟨hx, rfl⟩
    · cases h
  | succ fuel ih =>
    intro st cl net ptr total out hcl hx h
    simp only [sendLoop] at h
    split at h
    · cases h
      exact ⟨hx, rfl⟩
    · split at h
      · cases h
      · rename_i now cl₁
        split at h
        · cases h
        · rename_i t1 cl₂
          split at h
          · cases h
          · rename_i result rest net2 tr heq
            split at h
            · rename_i hneg
              exact absurd hneg (Nat.not_lt_zero _)
            · split at h
              · cases h
              · rename_i t2 cl₃
                split at h
                · cases h
                · rename_i res st3 cl3 net3 tr3 heq2
                  cases h
                  have hc1 : ClockWF (t1 :: t2 :: cl₃) := ClockWF_tail hcl
                  obtain ⟨hN1, hN2, hle⟩ := ClockWF_pair hc1
                  have hc3 : ClockWF cl₃ := ClockWF_tail (ClockWF_tail hc1)
                  have hres := ih _ _ _ _ _ _ hc3
                    (add_nonneg (drawdown_snd_nonneg _ hx) (time_diff2_nonneg hN1 hN2 hle))
                    heq2
                  exact ⟨hres.1, hres.2⟩

/-- Monotonicity of the `send` chunk loop: any successful run never moves the
send schedule timestamp backward and leaves the receive timestamp untouched. -/
lemma sendLoop_mono (s flags : Int) (len : Nat) :
    ∀ (fuel : Nat) (st : RLState) (cl : List Timespec) (net : List SysResult)
      (ptr total : Nat) (out : Nat × RLState × List Timespec × List SysResult × List Call),
      sendLoop s flags len fuel st cl net ptr total = some out →
      st.send_.le out.2.1.send_ ∧ out.2.1.recv_ = st.recv_ := by
  intro fuel
  induction fuel with
  | zero =>
    intro st cl net ptr total out h
    simp only [sendLoop] at h
    split at h
    · cases h
      exact ⟨Timespec.le_refl _, rfl⟩
    · cases h
  | succ fuel ih =>
    intro st cl net ptr total out h
    simp only [sendLoop] at h
    split at h
    · cases h
      exact ⟨Timespec.le_refl _, rfl⟩
    · split at h
      · cases h
      · rename_i now cl₁
        split at h
        · cases h
        · rename_i t1 cl₂
          split at h
          · cases h
          · rename_i result rest net2 tr heq
            split at h
            · rename_i hneg
              exact absurd hneg (Nat.not_lt_zero _)
            · split at h
              · cases h
              · rename_i t2 cl₃
                split at h
                · cases h
                · rename_i res st3 cl3 net3 tr3 heq2
                  cases h
                  have hres := ih _ _ _ _ _ _ heq2
                  refine ⟨Timespec.le_trans ?_ hres.1, hres.2⟩
                  exact sched_advance_le st.send_ now _ _ (drawdown_fst_nonneg _ _)

/-- C2: starting from any state with non-negative credit, and with a clock
whose measured transfer durations are non-negative, every `send` and every
`recv` leaves both credit accumulators (`sendextra_`, `recvextra_`)
non-negative. -/
theorem claim_C2 (st : RLState) (cl : List Timespec) (net netr : List SysResult)
    (s : Int) (len : Nat) (flags : Int)
    (hcl : ClockWF cl) (hs : 0 ≤ st.sendextra_) (hr : 0 ≤ st.recvextra_) :
    (∀ out, send st cl net s len flags = some out →
      0 ≤ out.2.1.sendextra_ ∧ 0 ≤ out.2.1.recvextra_) ∧
    (∀ out, recv st cl netr s len flags = some out →
      0 ≤ out.2.1.sendextra_ ∧ 0 ≤ out.2.1.recvextra_) := by
  constructor
  · intro out h
    simp only [send] at h
    split at h
    · split at h
      · cases h
      · cases h
        exact ⟨hs, hr⟩
    · have hres := sendLoop_credit s flags len len st cl net 0 len out hcl hs h
      exact ⟨hres.1, hres.2 ▸ hr⟩
  · intro out h
    simp only [recv] at h
    split at h
    · split at h
      · cases h
      · cases h
        exact ⟨hs, hr⟩
    · split at h
      · cases h
      · rename_i t1 cl₁
        split at h
        · cases h
        · rename_i r netr₁
          split at h
          · cases h
            exact ⟨hs, hr⟩
          · split at h
            · cases h
            · rename_i t2 cl₂
              split at h
              · cases h
              · rename_i now cl₃
                cases h
                obtain ⟨hN1, hN2, hle⟩ := ClockWF_pair hcl
                exact ⟨hs, drawdown_snd_nonneg _
                  (add_nonneg hr (time_diff2_nonneg hN1 hN2 hle))⟩

/-- Witness for C2: a concrete paced 3-byte send and a concrete paced receive
both keep the credits non-negative. -/
theorem claim_C2_witness :
    ClockWF [⟨0, 0⟩, ⟨0, 0⟩, ⟨0, 0⟩] ∧
    (0 : ℚ) ≤ (⟨⟨0, 0⟩, ⟨0, 0⟩, 0, 0, 8, 10000⟩ : RLState).sendextra_ ∧
    (0 : ℚ) ≤ (⟨⟨0, 0⟩, ⟨0, 0⟩, 0, 0, 8, 10000⟩ : RLState).recvextra_ ∧
    ((∀ out, send ⟨⟨0, 0⟩, ⟨0, 0⟩, 0, 0, 8, 10000⟩ [⟨0, 0⟩, ⟨0, 0⟩, ⟨0, 0⟩]
        [SysResult.bytes 3] 7 3 0 = some out →
        0 ≤ out.2.1.sendextra_ ∧ 0 ≤ out.2.1.recvextra_) ∧
     (∀ out, recv ⟨⟨0, 0⟩, ⟨0, 0⟩, 0, 0, 8, 10000⟩ [⟨0, 0⟩, ⟨0, 0⟩, ⟨0, 0⟩]
        [SysResult.bytes 2] 7 3 0 = some out →
        0 ≤ out.2.1.sendextra_ ∧ 0 ≤ out.2.1.recvextra_)) :=
  ⟨by decide, le_rfl, le_rfl,
    claim_C2 ⟨⟨0, 0⟩, ⟨0, 0⟩, 0, 0, 8, 10000⟩ [⟨0, 0⟩, ⟨0, 0⟩, ⟨0, 0⟩]
      [SysResult.bytes 3] [SysResult.bytes 2] 7 3 0 (by decide) le_rfl le_rfl⟩

/-- C3: the next-eligible-time timestamp of each direction is monotonically
non-decreasing: a successful `send` never moves `send_` backward (and leaves
`recv_` alone), and a successful `recv` never moves `recv_` backward (and
leaves `send_` alone). -/
theorem claim_C3 (st : RLState) (cl : List Timespec) (net netr : List SysResult)
    (s : Int) (len : Nat) (flags : Int) :
    (∀ out, send st cl net s len flags = some out →
      st.send_.le out.2.1.send_ ∧ out.2.1.recv_ = st.recv_) ∧
    (∀ out, recv st cl netr s len flags = some out →
      st.recv_.le out.2.1.recv_ ∧ out.2.1.send_ = st.send_) := by
  constructor
  · intro out h
    simp only [send] at h
    split at h
    · split at h
      · cases h
      · cases h
        exact ⟨Timespec.le_refl _, rfl⟩
    · exact sendLoop_mono s flags len len st cl net 0 len out h
  · intro out h
    simp only [recv] at h
    split at h
    · split at h
      · cases h
      · cases h
        exact ⟨Timespec.le_refl _, rfl⟩
    · split at h
      · cases h
      · rename_i t1 cl₁
        split at h
        · cases h
        · rename_i r netr₁
          split at h
          · cases h
            exact ⟨Timespec.le_refl _, rfl⟩
          · split at h
            · cases h
            · rename_i t2 cl₂
              split at h
              · cases h
              · rename_i now cl₃
                cases h
                exact ⟨sched_advance_le st.recv_ now _ _ (drawdown_fst_nonneg _ _), rfl⟩

/-- Witness for C3: the concrete paced 3-byte send of the C2 witness moves
`send_` from `(0,0)` forward to `(3,0)` and leaves `recv_` unchanged. -/
theorem claim_C3_witness :
    Timespec.le (⟨⟨0, 0⟩, ⟨0, 0⟩, 0, 0, 8, 10000⟩ : RLState).send_
      (⟨⟨3, 0⟩, ⟨0, 0⟩, 0, 0, 8, 10000⟩ : RLState).send_ ∧
    (⟨⟨3, 0⟩, ⟨0, 0⟩, 0, 0, 8, 10000⟩ : RLState).recv_
      = (⟨⟨0, 0⟩, ⟨0, 0⟩, 0, 0, 8, 10000⟩ : RLState).recv_ := by
  have hsend : send ⟨⟨0, 0⟩, ⟨0, 0⟩, 0, 0, 8, 10000⟩ [⟨0, 0⟩, ⟨0, 0⟩, ⟨0, 0⟩]
      [SysResult.bytes 3] 7 3 0
      = some (3, ⟨⟨3, 0⟩, ⟨0, 0⟩, 0, 0, 8, 10000⟩, [], [],
          [Call.sleep ⟨3, 0⟩, Call.netSend 7 0 3 0]) := by
    norm_num [send, sendLoop, sendall, sendallGo, drawdown, time_less, time_add, time_diff,
      time_diff2, ctrunc, toSize, sysRet, nmax]
  exact (claim_C3 ⟨⟨0, 0⟩, ⟨0, 0⟩, 0, 0, 8, 10000⟩ [⟨0, 0⟩, ⟨0, 0⟩, ⟨0, 0⟩]
    [SysResult.bytes 3] [] 7 3 0).1 _ hsend

/-- C6 (code bug evidence): no constructor assigns either credit accumulator,
and the two-argument constructor never assigns the receive timestamp, so the
first paced operation reads uninitialized memory instead of starting from
credit 0 (and, after `RateLimiter(r, maxburst)`, from `recv_ = now`). -/
theorem claim_C6 :
    (mk0 ⟨0, 0⟩ ⟨0, 0⟩).sendextra_ = none ∧ (mk0 ⟨0, 0⟩ ⟨0, 0⟩).recvextra_ = none ∧
    (mk1 5 ⟨0, 0⟩ ⟨0, 0⟩).sendextra_ = none ∧ (mk1 5 ⟨0, 0⟩ ⟨0, 0⟩).recvextra_ = none ∧
    (mk2 5 100 ⟨0, 0⟩).sendextra_ = none ∧ (mk2 5 100 ⟨0, 0⟩).recvextra_ = none ∧
    (mk2 5 100 ⟨0, 0⟩).recv_ = none :=
  ⟨rfl, rfl, rfl, rfl, rfl, rfl, rfl⟩

/-- C5: with `rate_ == 0`, each of `send`, `recv` and `sendfile` performs
exactly one direct call to its collaborator primitive with the caller's
original arguments, sleeps never, leaves the pacing state untouched and
returns the primitive's result unchanged (converted only by the declared
`size_t` return type of `send`/`recv`). -/
theorem claim_C5 (st : RLState) (cl : List Timespec) (net netr file : List SysResult)
    (r r2 : SysResult) (sfres : Int) (s sock fd : Int) (len count : Nat) (flags : Int)
    (h : st.rate_ = 0) :
    send st cl (r :: net) s len flags
      = some (toSize (sysRet r), st, cl, net, [Call.netSend s 0 len flags]) ∧
    recv st cl (r2 :: netr) s len flags
      = some (toSize (sysRet r2), st, cl, netr, [Call.netRecv s len flags]) ∧
    sendfile st cl net file sfres sock fd count
      = some (sfres, st, cl, net, [Call.sysSendfile sock fd count]) := by
  refine ⟨?_, ?_, ?_⟩ <;> simp [send, recv, sendfile, h]

/-- Witness for C5 with a concrete unlimited-rate state and concrete
primitive results. -/
theorem claim_C5_witness :
    (⟨⟨0, 0⟩, ⟨0, 0⟩, 0, 0, 0, 10000⟩ : RLState).rate_ = 0 ∧
    (send ⟨⟨0, 0⟩, ⟨0, 0⟩, 0, 0, 0, 10000⟩ [⟨1, 2⟩] [SysResult.bytes 5] 11 6 0
      = some (toSize (sysRet (SysResult.bytes 5)), ⟨⟨0, 0⟩, ⟨0, 0⟩, 0, 0, 0, 10000⟩,
          [⟨1, 2⟩], [], [Call.netSend 11 0 6 0]) ∧
     recv ⟨⟨0, 0⟩, ⟨0, 0⟩, 0, 0, 0, 10000⟩ [⟨1, 2⟩] [SysResult.fail false] 11 6 0
      = some (toSize (sysRet (SysResult.fail false)), ⟨⟨0, 0⟩, ⟨0, 0⟩, 0, 0, 0, 10000⟩,
          [⟨1, 2⟩], [], [Call.netRecv 11 6 0]) ∧
     sendfile ⟨⟨0, 0⟩, ⟨0, 0⟩, 0, 0, 0, 10000⟩ [⟨1, 2⟩] [] [] 42 9 4 3
      = some (42, ⟨⟨0, 0⟩, ⟨0, 0⟩, 0, 0, 0, 10000⟩, [⟨1, 2⟩], [],
          [Call.sysSendfile 9 4 3])) :=
  ⟨rfl, claim_C5 ⟨⟨0, 0⟩, ⟨0, 0⟩, 0, 0, 0, 10000⟩ [⟨1, 2⟩] [] [] []
    (SysResult.bytes 5) (SysResult.fail false) 42 11 9 4 6 3 0 rfl⟩

/-- C10: with a positive configured rate and requested length 0, `send`
returns 0 at once: the chunk loop body never runs, so no collaborator is
called, no sleep happens, and neither schedule changes. -/
theorem claim_C10 (st : RLState) (cl : List Timespec) (net : List SysResult)
    (s flags : Int) (h : 0 < st.rate_) :
    send st cl net s 0 flags = some (0, st, cl, net, []) := by
  have hne : ¬ st.rate_ = 0 := by omega
  simp [send, hne, sendLoop]

/-- Witness for C10 at a concrete positive-rate state. -/
theorem claim_C10_witness :
    (0 : Int) < (⟨⟨0, 0⟩, ⟨0, 0⟩, 0, 0, 8, 10000⟩ : RLState).rate_ ∧
    send ⟨⟨0, 0⟩, ⟨0, 0⟩, 0, 0, 8, 10000⟩ [⟨1, 2⟩] [SysResult.bytes 5] 11 0 0
      = some (0, ⟨⟨0, 0⟩, ⟨0, 0⟩, 0, 0, 8, 10000⟩, [⟨1, 2⟩], [SysResult.bytes 5], []) :=
  ⟨by norm_num, claim_C10 ⟨⟨0, 0⟩, ⟨0, 0⟩, 0, 0, 8, 10000⟩ [⟨1, 2⟩]
    [SysResult.bytes 5] 11 0 (by norm_num)⟩

/-- C1 (code bug evidence): a fatal (non-interrupted) `::send` failure makes
`sendall` return its local `error` variable, which is always `0`, and the
`result < 0` check in `send` compares a `size_t`, so it can never fire: with
rate 8 bit/s a 3-byte send whose only transport call fails fatally still
returns the full count 3 as success. -/
theorem claim_C1 :
    sendall 7 [SysResult.fail false] 3 0 = some (0, 3, [], [Call.netSend 7 0 3 0]) ∧
    (send ⟨⟨0, 0⟩, ⟨0, 0⟩, 0, 0, 8, 10000⟩ [⟨0, 0⟩, ⟨0, 0⟩, ⟨0, 0⟩] [SysResult.fail false]
        7 3 0).map (fun out => out.1) = some 3 := by
  refine ⟨by decide, ?_⟩
  norm_num [send, sendLoop, sendall, sendallGo, drawdown, time_less, time_add, time_diff,
    time_diff2, ctrunc, toSize, sysRet, nmax]

/-- C7 (amended): a zero-length `::send` result ends the chunk loop early and
is not an error, but `sendall` then returns the full requested length, not
the smaller delivered count: after `k` of `len` bytes are accepted and the
peer stops, `sendall` reports `len` with `nleft = len - k` undelivered. -/
theorem claim_C7 (s flags : Int) (len k : Nat) (h1 : 0 < k) (h2 : k < len)
    (h3 : len < 18446744073709551616) :
    sendall s [SysResult.bytes k, SysResult.bytes 0] len flags
      = some (len, len - k, [],
          [Call.netSend s 0 len flags, Call.netSend s k (len - k) flags]) := by
  obtain ⟨len', rfl⟩ : ∃ l, len = l + 1 := ⟨len - 1, by omega⟩
  obtain ⟨k', rfl⟩ : ∃ j, k = j + 1 := ⟨k - 1, by omega⟩
  unfold sendall
  obtain ⟨j, hj⟩ : ∃ j, len' - k' = j + 1 := ⟨len' - k' - 1, by omega⟩
  have hts : toSize ((len' : Int) + 1 - ((k' : Int) + 1)) = j + 1 := by
    unfold toSize
    omega
  have hsub : len' + 1 - (k' + 1) = j + 1 := by omega
  simp only [sendallGo, hts, hj, hsub, Nat.zero_add]

/-- Witness for C7 (amended) at `len = 5`, `k = 2`. -/
theorem claim_C7_witness :
    0 < 2 ∧ 2 < 5 ∧ 5 < 18446744073709551616 ∧
    sendall 9 [SysResult.bytes 2, SysResult.bytes 0] 5 1
      = some (5, 5 - 2, [], [Call.netSend 9 0 5 1, Call.netSend 9 2 (5 - 2) 1]) :=
  ⟨by decide, by decide, by norm_num,
    claim_C7 9 1 5 2 (by decide) (by decide) (by norm_num)⟩

/-- Counterexample to C7 as stated: requesting 3 bytes while the peer accepts
1 byte and then stops, the paced `send` returns 3 — the full requested count
— although only 1 byte was delivered, so the returned count is not the
smaller delivered count. -/
theorem claim_C7_counterexample :
    sendall 7 [SysResult.bytes 1, SysResult.bytes 0] 3 0
      = some (3, 2, [], [Call.netSend 7 0 3 0, Call.netSend 7 1 2 0]) ∧
    (send ⟨⟨0, 0⟩, ⟨0, 0⟩, 0, 0, 8, 10000⟩ [⟨0, 0⟩, ⟨0, 0⟩, ⟨0, 0⟩]
        [SysResult.bytes 1, SysResult.bytes 0] 7 3 0).map (fun out => out.1) = some 3 ∧
    (3 : Nat) ≠ 1 := by
  refine ⟨by decide, ?_, by decide⟩
  norm_num [send, sendLoop, sendall, sendallGo, drawdown, time_less, time_add, time_diff,
    time_diff2, ctrunc, toSize, sysRet, nmax]

/-- C9 (code bug evidence): `rnum` in `sendfile` is a `size_t`, so the
`rnum < 0` check never fires and neither the interrupted-retry branch nor the
abort branch is reachable: a failed `read` (with or without `EINTR`) is seen
as the count `2^64 - 1`, clamped to the remaining target, and its buffer is
sent; `sendfile` then returns the full count 3 as success instead of
surfacing the error. -/
theorem claim_C9 :
    (sendfile ⟨⟨0, 0⟩, ⟨0, 0⟩, 0, 0, 8, 10000⟩ [⟨0, 0⟩, ⟨0, 0⟩, ⟨0, 0⟩] [SysResult.bytes 3]
        [SysResult.fail false] 0 9 4 3).map (fun out => out.1) = some 3 ∧
    (sendfile ⟨⟨0, 0⟩, ⟨0, 0⟩, 0, 0, 8, 10000⟩ [⟨0, 0⟩, ⟨0, 0⟩, ⟨0, 0⟩] [SysResult.bytes 3]
        [SysResult.fail true] 0 9 4 3).map (fun out => out.1) = some 3 := by
  constructor <;>
    norm_num [sendfile, sendfileLoop, send, sendLoop, sendall, sendallGo, drawdown,
      time_less, time_add, time_diff, time_diff2, ctrunc, toSize, toInt32, sysRet, nmax]

end RateLimiter
